import Mathlib

/-!
Verification development for the FOMOSEARCH repository.

The repository is a small Python search engine: a crawler
(`crawler.py`) that maintains a priority frontier, fetches pages and
saves them to a SQLite store (`db.py`), a URL/text utility module
(`utils_text.py`), and a Flask query front end (`app.py`) that parses
Google-style operators, queries an FTS5 index and post-filters results.

This file gives a shallow embedding of the parts of the source that the
checked claims are about.  Python strings are modelled as `List Char`
(ASCII; the concrete inputs used below are ASCII, and Python's `\w`,
`\s` and `.lower()` agree with the ASCII model on them).  The regular
expression substitutions of the source are embedded as explicit
left-to-right, non-overlapping scanners, matching Python `re.sub` /
`re.findall` semantics on newline-free input.  External collaborators —
the HTTP layer, `robots.txt` retrieval, BeautifulSoup extraction, and
the SQLite FTS5 index — are modelled as explicit oracle parameters,
mirroring how the specification declares them out of scope.
-/

namespace FomoSearch

/-! ### Character and string primitives (ASCII model of Python's str) -/

/-- ASCII model of Python's regex `\w` class: `[a-zA-Z0-9_]`. -/
def isWordChar (c : Char) : Bool :=
  ('a' ≤ c && c ≤ 'z') || ('A' ≤ c && c ≤ 'Z') || ('0' ≤ c && c ≤ '9') || c == '_'

/-- ASCII model of Python's whitespace class used by `str.split()` and `str.strip()`. -/
def isSpaceChar (c : Char) : Bool :=
  c == ' ' || c == '\t' || c == '\n' || c == '\r' || c == '\x0b' || c == '\x0c'

/-- ASCII model of Python's `str.lower()` on one character. -/
def toLowerChar (c : Char) : Char :=
  if 'A' ≤ c && c ≤ 'Z' then Char.ofNat (c.toNat + 32) else c

/-- ASCII model of Python's `str.lower()`. -/
def lowerStr (s : String) : String :=
  String.mk (s.toList.map toLowerChar)

/-- Is `p` a prefix of `l`? (Helper for substring containment.) -/
def startsWithChars : List Char → List Char → Bool
  | [], _ => true
  | _ :: _, [] => false
  | p :: ps, c :: cs => p == c && startsWithChars ps cs

/-- Python's substring containment `pat in hay` (true for the empty pattern). -/
def containsSub : List Char → List Char → Bool
  | [], pat => pat.isEmpty
  | h :: t, pat => startsWithChars pat (h :: t) || containsSub t pat

/-- Python's `str.strip()`: remove leading and trailing whitespace. -/
def pyStrip (s : String) : String :=
  String.mk (((s.toList.dropWhile isSpaceChar).reverse.dropWhile isSpaceChar).reverse)

/-! ### `utils_text.normalize_url`

The source (utils_text.py lines 139-158) applies, in this order:
`url.rstrip('/')`; `re.sub(r'#.*$', '', url)`; for each tracking
parameter `p` in a fixed list, `re.sub(f'[?&]{p}=[^&]*', '', url)`;
finally `re.sub(r'[?&]$', '', url)`.  Each regex is embedded as a
scanner below (exact on newline-free input). -/

/-- Python `url.rstrip('/')`: drop all trailing `'/'` characters. -/
def rstripSlash (l : List Char) : List Char :=
  (l.reverse.dropWhile (fun c => c == '/')).reverse

/-- Model of `re.sub(r'#.*$', '', url)` on newline-free input: delete
everything from the first `'#'` to the end of the string. -/
def cutHash : List Char → List Char
  | [] => []
  | c :: cs => if c == '#' then [] else c :: cutHash cs

/-- Scanner for `re.sub(f'[?&]{param}=[^&]*', '', url)`.  The second
argument counts characters of a committed match still to be consumed
(the `param=` part); the third flag is true while consuming the greedy
`[^&]*` tail.  Matches are found left to right and non-overlapping, and
scanning resumes at the terminating `'&'`, exactly as `re.sub` does. -/
def subParamAux (param : List Char) : List Char → Nat → Bool → List Char
  | [], _, _ => []
  | _ :: cs, n + 1, sk => subParamAux param cs n sk
  | c :: cs, 0, true =>
    if c == '&' then
      if startsWithChars (param ++ ['=']) cs then
        subParamAux param cs (param.length + 1) true
      else
        c :: subParamAux param cs 0 false
    else
      subParamAux param cs 0 true
  | c :: cs, 0, false =>
    if (c == '?' || c == '&') && startsWithChars (param ++ ['=']) cs then
      subParamAux param cs (param.length + 1) true
    else
      c :: subParamAux param cs 0 false

/-- One tracking-parameter substitution pass of `normalize_url`. -/
def subParam (param : List Char) (l : List Char) : List Char :=
  subParamAux param l 0 false

/-- The fixed tracking-parameter list of `normalize_url`, in source order. -/
def trackingParams : List (List Char) :=
  ["utm_source".toList, "utm_medium".toList, "utm_campaign".toList,
   "utm_content".toList, "utm_term".toList]

/-- Model of `re.sub(r'[?&]$', '', url)`: drop one final `'?'` or `'&'`. -/
def subTrailingQA (l : List Char) : List Char :=
  match l.getLast? with
  | some c => if c == '?' || c == '&' then l.dropLast else l
  | none => l

/-- The body of `normalize_url` on character lists. -/
def normalizeCore (l : List Char) : List Char :=
  subTrailingQA (trackingParams.foldl (fun acc p => subParam p acc) (cutHash (rstripSlash l)))

/-- Embedding of `utils_text.normalize_url` (lines 139-158): the falsy
guard `if not url: return url` followed by the four substitution steps. -/
def normalize_url (url : String) : String :=
  if url = "" then url else String.mk (normalizeCore url.toList)

/-! ### `app.AdvancedSearchEngine.parse_search_query`

The source (app.py lines 17-66) destructively extracts, in order:
quoted phrases `"..."`, exclusions `-(\w+)`, `site:(\S+)` (first match),
`filetype:(\w+)` (first match), `intitle:(\w+)` and `inurl:(\w+)` (all
matches); the residual whitespace-separated tokens become `terms`.
Each `re.findall`/`re.sub` pair is embedded as one scanner returning
(captured groups, residual text). -/

/-- Scanner for `re.findall(r'"([^"]*)"', q)` together with
`re.sub(r'"[^"]*"', '', q)`.  The state holds the reversed content of a
currently open quote; an unclosed final quote is kept verbatim. -/
def scanQuotedAux : List Char → Option (List Char) → List (List Char) × List Char
  | [], none => ([], [])
  | [], some acc => ([], '"' :: acc.reverse)
  | c :: cs, none =>
    if c == '"' then scanQuotedAux cs (some [])
    else
      let r := scanQuotedAux cs none
      (r.1, c :: r.2)
  | c :: cs, some acc =>
    if c == '"' then
      let r := scanQuotedAux cs none
      (acc.reverse :: r.1, r.2)
    else scanQuotedAux cs (some (c :: acc))

/-- Quoted-phrase extraction: captured phrases and the residual text. -/
def scanQuoted (l : List Char) : List (List Char) × List Char :=
  scanQuotedAux l none

/-- Scanner for `re.findall(r'-(\w+)', q)` together with
`re.sub(r'-\w+', '', q)`.  The state holds the reversed word run of the
match currently being consumed; a `'-'` not followed by a word character
is kept verbatim. -/
def scanDashAux : List Char → Option (List Char) → List (List Char) × List Char
  | [], none => ([], [])
  | [], some acc => ([acc.reverse], [])
  | [c], none => ([], [c])
  | [c], some acc =>
    if isWordChar c then ([(c :: acc).reverse], [])
    else if c == '-' then ([acc.reverse], ['-'])
    else ([acc.reverse], [c])
  | c :: c2 :: cs2, none =>
    if c == '-' then
      if isWordChar c2 then scanDashAux cs2 (some [c2])
      else
        let r := scanDashAux (c2 :: cs2) none
        (r.1, '-' :: r.2)
    else
      let r := scanDashAux (c2 :: cs2) none
      (r.1, c :: r.2)
  | c :: c2 :: cs2, some acc =>
    if isWordChar c then scanDashAux (c2 :: cs2) (some (c :: acc))
    else if c == '-' then
      if isWordChar c2 then
        let r := scanDashAux cs2 (some [c2])
        (acc.reverse :: r.1, r.2)
      else
        let r := scanDashAux (c2 :: cs2) none
        (acc.reverse :: r.1, '-' :: r.2)
    else
      let r := scanDashAux (c2 :: cs2) none
      (acc.reverse :: r.1, c :: r.2)

/-- Exclusion extraction: captured `-word` fragments and the residual text. -/
def scanDash (l : List Char) : List (List Char) × List Char :=
  scanDashAux l none

/-- Scanner for the `key:(value)` operators (`site:`, `filetype:`,
`intitle:`, `inurl:`), where `value` is a nonempty maximal run of
characters satisfying `pred` (`\S` for `site`, `\w` for the others).
The `Nat` counts committed key characters still to drop; the flag is
true while accumulating the value (reversed in `acc`).  A key
occurrence not followed by a `pred` character is not a match; since the
keys contain `':'` and no key is a proper suffix of part of itself, no
match can start inside a key occurrence, so the scanner's behaviour
coincides with `re.findall`/`re.sub` for these patterns. -/
def scanOpAux (key : List Char) (pred : Char → Bool) :
    List Char → Nat → Bool → List Char → List (List Char) × List Char
  | [], _, false, _ => ([], [])
  | [], _, true, acc => ([acc.reverse], [])
  | _ :: cs, n + 1, b, acc => scanOpAux key pred cs n b acc
  | c :: cs, 0, true, acc =>
    if pred c then scanOpAux key pred cs 0 true (c :: acc)
    else if startsWithChars key (c :: cs) && !(((c :: cs).drop key.length).takeWhile pred).isEmpty then
      let r := scanOpAux key pred cs (key.length - 1) true []
      (acc.reverse :: r.1, r.2)
    else
      let r := scanOpAux key pred cs 0 false []
      (acc.reverse :: r.1, c :: r.2)
  | c :: cs, 0, false, _ =>
    if startsWithChars key (c :: cs) && !(((c :: cs).drop key.length).takeWhile pred).isEmpty then
      scanOpAux key pred cs (key.length - 1) true []
    else
      let r := scanOpAux key pred cs 0 false []
      (r.1, c :: r.2)

/-- Operator extraction: captured values and the residual text. -/
def scanOp (key : List Char) (pred : Char → Bool) (l : List Char) :
    List (List Char) × List Char :=
  scanOpAux key pred l 0 false []

/-- Model of Python's `str.split()` (split on whitespace runs, dropping
empty tokens); the state holds the reversed current token. -/
def splitWsAux : List Char → Option (List Char) → List (List Char)
  | [], none => []
  | [], some acc => [acc.reverse]
  | c :: cs, none =>
    if isSpaceChar c then splitWsAux cs none else splitWsAux cs (some [c])
  | c :: cs, some acc =>
    if isSpaceChar c then acc.reverse :: splitWsAux cs none
    else splitWsAux cs (some (c :: acc))

/-- Whitespace tokenisation used for the residual `terms`. -/
def splitWs (l : List Char) : List (List Char) :=
  splitWsAux l none

/-- Negation of the whitespace class: Python's `\S`. -/
def notSpace (c : Char) : Bool := !isSpaceChar c

/-- The parsed-operator record built by `parse_search_query` (app.py lines 19-29). -/
structure QueryOperators where
  exact_phrase : List String
  exclude : List String
  site : Option String
  filetype : Option String
  intitle : List String
  inurl : List String
  terms : List String
deriving Repr, DecidableEq

/-- Embedding of `AdvancedSearchEngine.parse_search_query` (app.py lines
17-66): the scanners run in source order, each on the previous residual;
`site` and `filetype` keep only the first match (`re.search`), the others
keep all matches (`re.findall`). -/
def parse_search_query (query : String) : QueryOperators :=
  let s0 := query.toList
  let q := scanQuoted s0
  let d := scanDash q.2
  let si := scanOp "site:".toList notSpace d.2
  let ft := scanOp "filetype:".toList isWordChar si.2
  let it := scanOp "intitle:".toList isWordChar ft.2
  let iu := scanOp "inurl:".toList isWordChar it.2
  { exact_phrase := q.1.map String.mk
    exclude := d.1.map String.mk
    site := si.1.head?.map String.mk
    filetype := ft.1.head?.map String.mk
    intitle := it.1.map String.mk
    inurl := iu.1.map String.mk
    terms := (splitWs iu.2).map String.mk }

/-! ### `app.AdvancedSearchEngine.build_search_query` and the search pipeline

The query builder (app.py lines 68-163) produces an FTS5 match
expression, auxiliary URL conditions, an ORDER BY clause and
LIMIT/OFFSET pagination.  The SQLite engine itself is external: the
index is modelled as an oracle `idx : String → List SearchRow` mapping a
match expression to the matching joined rows (carrying the black-box
`bm25` rank), and the SQL `ORDER BY` is modelled as a stable sort on the
modelled sort key. -/

/-- Wrap a string in double quotes, as the f-strings of the source do. -/
def quoteWrap (s : String) : String := "\"" ++ s ++ "\""

/-- The FTS5 match expression of `build_search_query` (app.py lines
73-94): quoted phrase clauses, one AND-joined parenthesised clause for
the plain terms, `title:"…"` clauses, all AND-joined; `"*"` when no
clause exists. -/
def ftsQuery (ops : QueryOperators) : String :=
  let conds :=
    ops.exact_phrase.map quoteWrap
      ++ (if ops.terms.isEmpty then []
          else ["(" ++ String.intercalate " AND " (ops.terms.map quoteWrap) ++ ")"])
      ++ ops.intitle.map (fun t => "title:" ++ quoteWrap t)
  if conds.isEmpty then "*" else String.intercalate " AND " conds

/-- The ORDER BY clause chosen by `build_search_query` (app.py lines
117-121): `p.crawled_at DESC` for `sort_by == 'date'`, otherwise
`bm25(pages_fts) ASC`. -/
def orderByClause (sort_by : String) : String :=
  if sort_by = "date" then "p.crawled_at DESC" else "bm25(pages_fts) ASC"

/-- `AdvancedSearchEngine.results_per_page` (app.py line 14). -/
def results_per_page : Nat := 20

/-- One row of the paginated SQL result: the selected columns of the
`pages_fts`/`pages` join (app.py lines 126-138).  `rank` is the
black-box `bm25` value (modelled as an integer), `crawledAt` an abstract
timestamp key, `domain` the field filled in by the post-processing
loop. -/
structure SearchRow where
  url : String
  title : String
  snippet : String
  rank : Int
  crawledAt : Nat
  content_length : Nat
  domain : String
deriving Repr, DecidableEq

/-- Model of `urlparse(url).netloc` for absolute URLs: the text between
the first `"://"` and the next `'/'`, `'?'` or `'#'` (empty when the
URL has no `"://"`). -/
def afterSchemeAux : List Char → Option (List Char)
  | [] => none
  | ':' :: '/' :: '/' :: rest => some rest
  | _ :: cs => afterSchemeAux cs

/-- Model of `urlparse(url).netloc` (see `afterSchemeAux`). -/
def netloc (url : String) : String :=
  match afterSchemeAux url.toList with
  | none => ""
  | some rest => String.mk (rest.takeWhile (fun c => c != '/' && c != '?' && c != '#'))

/-- The auxiliary SQL conditions of `build_search_query` (app.py lines
96-104): `p.url LIKE %site%` and `p.url LIKE %term%` for each `inurl`
term.  SQLite `LIKE` is ASCII case-insensitive, hence the lowering. -/
def urlLikeCond (ops : QueryOperators) (r : SearchRow) : Bool :=
  (match ops.site with
   | some s => containsSub (lowerStr r.url).toList (lowerStr s).toList
   | none => true)
  && ops.inurl.all (fun t => containsSub (lowerStr r.url).toList (lowerStr t).toList)

/-- Model of the SQL `ORDER BY` of the paginated query: ascending
`bm25` rank for relevance, descending `crawled_at` for date (app.py
lines 117-121 and 143-146).  SQLite leaves the order of ties
unspecified; the model resolves them stably. -/
def sqlOrder (sort_by : String) (rows : List SearchRow) : List SearchRow :=
  if sort_by = "date" then List.insertionSort (fun a b => b.crawledAt ≤ a.crawledAt) rows
  else List.insertionSort (fun a b => a.rank ≤ b.rank) rows

/-- The per-result post-processing of `search` (app.py lines 187-192):
fill in `domain` and truncate a non-empty snippet over 300 characters,
appending an ellipsis.  (The `crawled_date` field is presentation-only
and not modelled.) -/
def enrich (r : SearchRow) : SearchRow :=
  { r with
    domain := netloc r.url
    snippet :=
      if r.snippet = "" then r.snippet
      else if 300 < r.snippet.length then String.mk (r.snippet.toList.take 300) ++ "..."
      else r.snippet }

/-- The exclusion test of `search` (app.py lines 195-201): some excluded
term occurs, lowercased, in the result's title and snippet joined by one
space. -/
def excludedHit (excl : List String) (r : SearchRow) : Bool :=
  let content_lower := lowerStr (r.title ++ " " ++ r.snippet)
  excl.any (fun e => containsSub content_lower.toList (lowerStr e).toList)

/-- The fields of `search`'s result dictionary that the claims are
about (app.py lines 206-216). -/
structure SearchOutput where
  results : List SearchRow
  total_results : Nat
  total_pages : Nat
  current_page : Nat
deriving Repr, DecidableEq

/-- Embedding of `AdvancedSearchEngine.search` (app.py lines 165-216)
for a query without time filter.  `idx` is the external FTS5 index: it
maps a match expression to the joined rows.  The count query runs on
the same predicate without LIMIT/OFFSET; the paginated query orders and
slices; post-processing enriches rows, then the exclusion post-filter
drops rows on the already-fetched slice.  `total_pages` is
`math.ceil(total_results / results_per_page)`. -/
def searchModel (idx : String → List SearchRow) (q : String) (page : Nat)
    (sort_by : String) : SearchOutput :=
  let ops := parse_search_query q
  let matched := (idx (ftsQuery ops)).filter (urlLikeCond ops)
  let total_results := matched.length
  let slice := (((sqlOrder sort_by matched).drop ((page - 1) * results_per_page)).take
    results_per_page).map enrich
  let results :=
    if ops.exclude.isEmpty then slice
    else slice.filter (fun r => !excludedHit ops.exclude r)
  { results := results
    total_results := total_results
    total_pages := (total_results + results_per_page - 1) / results_per_page
    current_page := page }

/-- Modelled from the spec: the domain-independent part of the Ranker
score described in spec §4.10 — +30 per query term occurring
case-insensitively in the title, +15 per query term occurring in the
URL, +10 if the content length exceeds 1000 characters, else +5 if it
exceeds 500.  The spec's domain-to-bonus table and domain-suffix bonus
are omitted here because the spec does not list the table's entries;
they depend only on the result's domain, so two results with equal
domains receive equal domain bonuses under any such table.  No such
scoring exists anywhere under src/. -/
def claimAuxScore (terms : List String) (r : SearchRow) : Nat :=
  30 * (terms.countP (fun t => containsSub (lowerStr r.title).toList (lowerStr t).toList))
    + 15 * (terms.countP (fun t => containsSub (lowerStr r.url).toList (lowerStr t).toList))
    + (if 1000 < r.content_length then 10 else if 500 < r.content_length then 5 else 0)

/-! ### `crawler.MassiveCrawler`

The crawler object's mutable state (crawler.py lines 17-40) is embedded
as an explicit record; the Python `set`s become lists used for
membership, the three `deque`s become lists appended on the right. -/

/-- The `stats` counters of `MassiveCrawler.__init__` (crawler.py lines 35-40). -/
structure CrawlStats where
  crawled : Nat
  failed : Nat
  duplicates : Nat
  robots_blocked : Nat
deriving Repr, DecidableEq

/-- The crawler state of `MassiveCrawler.__init__` (crawler.py lines
17-40): dedup set, failed set, per-domain robots cache, the three
priority queues, the statistics and the page budget. -/
structure Crawler where
  crawled_urls : List String
  failed_urls : List String
  robots_cache : List (String × Bool)
  hq : List String
  mq : List String
  lq : List String
  stats : CrawlStats
  max_pages : Nat
deriving Repr, DecidableEq

/-- Embedding of `MassiveCrawler.get_priority` (crawler.py lines
112-124): keyword classification of the lowercased URL. -/
def get_priority (url : String) : String :=
  let ul := (lowerStr url).toList
  if ["news", "blog", "article", "2024", "2023"].any (fun k => containsSub ul k.toList) then
    "high"
  else if ["docs", "tutorial", "guide", "learn"].any (fun k => containsSub ul k.toList) then
    "medium"
  else "low"

/-- Embedding of `MassiveCrawler.add_url_to_queue` (crawler.py lines
126-138): a URL already in `crawled_urls` only increments the
`duplicates` counter; otherwise the URL is appended to the queue of its
priority.  Note the source adds nothing to `crawled_urls` here. -/
def add_url_to_queue (c : Crawler) (url : String) : Crawler :=
  if c.crawled_urls.contains url then
    { c with stats := { c.stats with duplicates := c.stats.duplicates + 1 } }
  else
    let p := get_priority url
    if p = "high" then { c with hq := c.hq ++ [url] }
    else if p = "medium" then { c with mq := c.mq ++ [url] }
    else { c with lq := c.lq ++ [url] }

/-- Embedding of `MassiveCrawler.get_next_url` (crawler.py lines
140-148): strict priority pop, high before medium before low. -/
def get_next_url (c : Crawler) : Option String × Crawler :=
  match c.hq with
  | u :: rest => (some u, { c with hq := rest })
  | [] =>
    match c.mq with
    | u :: rest => (some u, { c with mq := rest })
    | [] =>
      match c.lq with
      | u :: rest => (some u, { c with lq := rest })
      | [] => (none, c)

/-- Embedding of `MassiveCrawler.check_robots_txt` (crawler.py lines
94-110).  `robotsFetch` is the external robots.txt retrieval and parse:
`some b` is a successful `can_fetch` answer, `none` a fetch or parse
failure (an exception in the source).  On a cache hit the cached
decision is returned; on a successful miss the decision is cached; on a
failure the source's `except` branch returns `True` without touching
the cache. -/
def check_robots_txt (robotsFetch : String → Option Bool) (c : Crawler) (url : String) :
    Bool × Crawler :=
  let domain := netloc url
  match c.robots_cache.lookup domain with
  | some b => (b, c)
  | none =>
    match robotsFetch domain with
    | some allowed => (allowed, { c with robots_cache := (domain, allowed) :: c.robots_cache })
    | none => (true, c)

/-- The outcome of the external HTTP GET in `fetch_url`: `exn` models a
network error or timeout raised by `session.get`, `resp` a received
response with its `content-type` header, body byte length, text and
status code. -/
inductive HttpResult where
  | exn
  | resp (contentType : String) (contentLength : Nat) (text : String) (status : Nat)
deriving Repr, DecidableEq

/-- Python `set.add`: insert if not present. -/
def setInsert (l : List String) (u : String) : List String :=
  if l.contains u then l else u :: l

/-- Embedding of `MassiveCrawler.fetch_url` (crawler.py lines 207-238).
A robots-blocked URL increments `robots_blocked`.  A raised network
error, and an HTTP error status via `raise_for_status`, land in the
`except` branch: the URL joins `failed_urls` and `failed` is
incremented.  A non-HTML content-type, or a body over 5 MB, returns
`None` with no counter change.  Otherwise the text and status are
returned. -/
def fetch_url (robotsFetch : String → Option Bool) (http : HttpResult) (c : Crawler)
    (url : String) : Option (String × Nat) × Crawler :=
  let rc := check_robots_txt robotsFetch c url
  if !rc.1 then
    (none, { rc.2 with stats := { rc.2.stats with robots_blocked := rc.2.stats.robots_blocked + 1 } })
  else
    match http with
    | .exn =>
      (none, { rc.2 with
        failed_urls := setInsert rc.2.failed_urls url
        stats := { rc.2.stats with failed := rc.2.stats.failed + 1 } })
    | .resp ct len text status =>
      if 400 ≤ status then
        (none, { rc.2 with
          failed_urls := setInsert rc.2.failed_urls url
          stats := { rc.2.stats with failed := rc.2.stats.failed + 1 } })
      else if !containsSub (lowerStr ct).toList "text/html".toList then (none, rc.2)
      else if 5 * 1024 * 1024 < len then (none, rc.2)
      else (some (text, status), rc.2)

/-! ### `db.init_db` schema and `crawler.MassiveCrawler.save_page` -/

/-- A row of the `pages` table (db.py lines 113-122). -/
structure PageRec where
  id : Nat
  url : String
  title : String
  content : String
  status_code : Nat
deriving Repr, DecidableEq

/-- A row of the `pages_fts` FTS5 table (db.py lines 125-133). -/
structure IndexEntry where
  page_id : Nat
  title : String
  content : String
deriving Repr, DecidableEq

/-- The persistent store: the `pages` table, the `pages_fts` index kept
in sync by the triggers of db.py, and the AUTOINCREMENT counter. -/
structure Store where
  pages : List PageRec
  fts : List IndexEntry
  next_id : Nat
deriving Repr, DecidableEq

/-- The duplicate pre-check `SELECT id FROM pages WHERE url = ?`. -/
def pageExists (st : Store) (url : String) : Bool :=
  st.pages.any (fun p => p.url == url)

/-- Python slicing `s[:n]`. -/
def strTake (s : String) (n : Nat) : String :=
  String.mk (s.toList.take n)

/-- `INSERT INTO pages ...` together with the synchronous
`pages_fts_insert` AFTER INSERT trigger of db.py (lines 136-141). -/
def insertPage (st : Store) (url title content : String) (status : Nat) : Store :=
  { pages := st.pages ++ [⟨st.next_id, url, title, content, status⟩]
    fts := st.fts ++ [⟨st.next_id, title, content⟩]
    next_id := st.next_id + 1 }

/-- How the external storage behaves during one `save_page` call:
normally (`ok`), raising `sqlite3.IntegrityError` on the INSERT (the
unique-key race, `integrityOnInsert`), or raising some other unexpected
exception (`raiseOther`). -/
inductive DbBehavior where
  | ok
  | integrityOnInsert
  | raiseOther
deriving Repr, DecidableEq

/-- The exceptions distinguished by `save_page`'s handlers. -/
inductive DbErr where
  | integrity
  | other
deriving Repr, DecidableEq

/-- The `try` body of `MassiveCrawler.save_page` (crawler.py lines
242-260): reject trimmed content under 100 characters; duplicate
pre-check; INSERT with the source's `[:500]`/`[:50000]` truncations
(which may raise, per `DbBehavior`); commit. -/
def save_page_body (beh : DbBehavior) (st : Store) (url title content : String)
    (status : Nat) : Except DbErr (Bool × Store) :=
  if (pyStrip content).length < 100 then .ok (false, st)
  else
    match beh with
    | .raiseOther => .error .other
    | .integrityOnInsert =>
      if pageExists st url then .ok (false, st) else .error .integrity
    | .ok =>
      if pageExists st url then .ok (false, st)
      else .ok (true, insertPage st url (strTake title 500) (strTake content 50000) status)

/-- Embedding of `MassiveCrawler.save_page` (crawler.py lines 240-266):
the `try` body with both `except` handlers mapping any raised exception
to `False`; an uncommitted transaction is rolled back, so the store is
returned unchanged on an exception. -/
def save_page (beh : DbBehavior) (st : Store) (url title content : String)
    (status : Nat) : Bool × Store :=
  match save_page_body beh st url title content status with
  | .ok r => r
  | .error .integrity => (false, st)
  | .error .other => (false, st)

/-- Embedding of `MassiveCrawler.crawl_single_url` (crawler.py lines
268-295).  `ext` is the external BeautifulSoup extraction
`extract_content_and_links`, returning (title, content, links); its
`except` branch yields `(none, none, [])`.  The URL is added to the
dedup set `crawled_urls` before the fetch; the page is saved only when
title and content are truthy; at most the first 20 discovered links are
returned.  (The politeness sleep has no observable effect here and is
not modelled.) -/
def crawl_single_url (robotsFetch : String → Option Bool) (http : HttpResult)
    (ext : String → Option String × Option String × List String)
    (beh : DbBehavior) (st : Store) (c : Crawler) (url : String) :
    List String × Crawler × Store :=
  if c.crawled_urls.contains url || c.max_pages ≤ c.crawled_urls.length then ([], c, st)
  else
    match fetch_url robotsFetch http { c with crawled_urls := url :: c.crawled_urls } url with
    | (none, c1) => ([], c1, st)
    | (some (html, status), c1) =>
      match ext html with
      | (some title, some content, links) =>
        if title ≠ "" ∧ content ≠ "" then
          match save_page beh st url title content status with
          | (saved, st2) =>
            (links.take 20,
              if saved then
                { c1 with stats := { c1.stats with crawled := c1.stats.crawled + 1 } }
              else c1,
              st2)
        else (links.take 20, c1, st)
      | (_, _, links) => (links.take 20, c1, st)

/-! ### Concrete fixtures used by witnesses and counterexamples -/

/-- A freshly constructed crawler, as `MassiveCrawler(max_pages=100000)`
initialises it. -/
def freshCrawler : Crawler :=
  { crawled_urls := [], failed_urls := [], robots_cache := []
    hq := [], mq := [], lq := []
    stats := ⟨0, 0, 0, 0⟩, max_pages := 100000 }

/-- A robots oracle whose fetch always succeeds with "allowed". -/
def allowAll : String → Option Bool := fun _ => some true

/-- A robots oracle whose fetch always succeeds with "disallowed". -/
def denyAll : String → Option Bool := fun _ => some false

/-- A robots oracle whose fetch or parse always fails (raises). -/
def failRobots : String → Option Bool := fun _ => none

/-- First fixture row for the ranking counterexample: its title contains
the query term and its `bm25` rank is worse (larger). -/
def rowTitleHit : SearchRow :=
  { url := "https://a.com/1", title := "python guide", snippet := ""
    rank := 5, crawledAt := 0, content_length := 100, domain := "" }

/-- Second fixture row for the ranking counterexample: same domain, no
query term anywhere, better (smaller) `bm25` rank. -/
def rowTitleMiss : SearchRow :=
  { url := "https://a.com/2", title := "haskell book", snippet := ""
    rank := 1, crawledAt := 0, content_length := 100, domain := "" }

/-- An index oracle answering every match expression with the two
ranking fixture rows. -/
def pairIdx : String → List SearchRow := fun _ => [rowTitleHit, rowTitleMiss]

/-- One row of the exclusion fixture corpus: rows 0-4 mention "java" in
the title, the rest do not. -/
def exclRow (i : Nat) : SearchRow :=
  { url := "https://a.com/p", title := if i < 5 then "java page" else "python page"
    snippet := "", rank := Int.ofNat i, crawledAt := 0, content_length := 100, domain := "" }

/-- The exclusion fixture corpus: 25 rows, of which the first five
mention "java". -/
def exclDb : List SearchRow := (List.range 25).map exclRow

/-- An index oracle answering every match expression with the whole
exclusion fixture corpus (in particular the wildcard `"*"`). -/
def exclIdx : String → List SearchRow := fun _ => exclDb

/-- Total number of URLs queued across the three priority tiers. -/
def queueTotal (c : Crawler) : Nat :=
  c.hq.length + c.mq.length + c.lq.length

/-- Join a list of word fragments into `-frag1-frag2-…`, the shape of a
hyphenated compound word's tail. -/
def dashJoin (ws : List (List Char)) : List Char :=
  (ws.map (fun w => '-' :: w)).flatten

/-- A normalized URL in "clean" form: no fragment marker, no query
characters, and no trailing slash.  On such strings every step of
`normalize_url` is the identity. -/
def cleanUrl (s : String) : Bool :=
  !(decide ('#' ∈ s.toList)) && !(decide ('?' ∈ s.toList)) && !(decide ('&' ∈ s.toList)) &&
    (match s.toList.getLast? with
     | some c => !(c == '/')
     | none => true)

/-- A 120-character content string (above the 100-character floor). -/
def longContent : String := String.mk (List.replicate 120 'a')

/-- An empty store, as `init_db` creates it. -/
def emptyStore : Store := ⟨[], [], 1⟩

/-! ## Helper lemmas -/

/-- A prefix's characters all occur in the string it prefixes. -/
theorem startsWithChars_mem {p l : List Char} (h : startsWithChars p l = true) :
    ∀ x ∈ p, x ∈ l := by
  induction p generalizing l with
  | nil => intro x hx; cases hx
  | cons p0 ps ih =>
    cases l with
    | nil => simp [startsWithChars] at h
    | cons c cs =>
      simp only [startsWithChars, Bool.and_eq_true, beq_iff_eq] at h
      intro x hx
      cases hx with
      | head => simp [h.1]
      | tail _ hmem => exact List.mem_cons_of_mem _ (ih h.2 x hmem)

/-- The quoted-phrase scanner is the identity on quote-free text. -/
theorem scanQuotedAux_no_quote {l : List Char} (h : '"' ∉ l) :
    scanQuotedAux l none = ([], l) := by
  induction l with
  | nil => rfl
  | cons c cs ih =>
    have hc : ¬(c == '"') = true := by
      simp only [beq_iff_eq]; intro hcq; exact h (hcq ▸ List.mem_cons_self c cs)
    have hcs : '"' ∉ cs := fun hm => h (List.mem_cons_of_mem _ hm)
    simp [scanQuotedAux, hc, ih hcs]

/-- The operator scanner is the identity when the key needs a colon and
the text has none. -/
theorem scanOpAux_no_colon {key l : List Char} {pred : Char → Bool} {acc : List Char}
    (hk : ':' ∈ key) (hl : ':' ∉ l) :
    scanOpAux key pred l 0 false acc = ([], l) := by
  induction l generalizing acc with
  | nil => rfl
  | cons c cs ih =>
    have hsw : startsWithChars key (c :: cs) = false := by
      cases hq : startsWithChars key (c :: cs) with
      | false => rfl
      | true => exact absurd (startsWithChars_mem hq ':' hk) hl
    have hcs : ':' ∉ cs := fun hm => hl (List.mem_cons_of_mem _ hm)
    simp [scanOpAux, hsw, ih hcs]

/-- Whitespace tokenisation of a space-free token appended to an open
accumulator. -/
theorem splitWsAux_token {l acc : List Char} (h : ∀ c ∈ l, isSpaceChar c = false) :
    splitWsAux l (some acc) = [acc.reverse ++ l] := by
  induction l generalizing acc with
  | nil => simp [splitWsAux]
  | cons c cs ih =>
    have hc : isSpaceChar c = false := h c (List.mem_cons_self c cs)
    have hcs : ∀ x ∈ cs, isSpaceChar x = false := fun x hx => h x (List.mem_cons_of_mem _ hx)
    simp [splitWsAux, hc, ih hcs]

/-- Whitespace tokenisation of one nonempty space-free token. -/
theorem splitWs_single {l : List Char} (hne : l ≠ [])
    (h : ∀ c ∈ l, isSpaceChar c = false) : splitWs l = [l] := by
  cases l with
  | nil => exact absurd rfl hne
  | cons c cs =>
    have hc : isSpaceChar c = false := h c (List.mem_cons_self c cs)
    have hcs : ∀ x ∈ cs, isSpaceChar x = false := fun x hx => h x (List.mem_cons_of_mem _ hx)
    simp [splitWs, splitWsAux, hc, splitWsAux_token hcs]

/-- A word character is not a hyphen, quote, colon or whitespace. -/
theorem isWordChar_ne {c : Char} (h : isWordChar c = true) :
    c ≠ '-' ∧ c ≠ '"' ∧ c ≠ ':' ∧ isSpaceChar c = false := by
  refine ⟨?_, ?_, ?_, ?_⟩
  · intro hc; subst hc; exact absurd h (by decide)
  · intro hc; subst hc; exact absurd h (by decide)
  · intro hc; subst hc; exact absurd h (by decide)
  · by_contra hbc
    rw [Bool.not_eq_false] at hbc
    simp only [isSpaceChar, Bool.or_eq_true, beq_iff_eq] at hbc
    rcases hbc with ((((hs | hs) | hs) | hs) | hs) | hs <;> subst hs <;>
      exact absurd h (by decide)

/-- A character of a hyphen-joined fragment list is the hyphen or a
fragment character. -/
theorem mem_dashJoin {x : Char} :
    ∀ {ws : List (List Char)}, x ∈ dashJoin ws → x = '-' ∨ ∃ w ∈ ws, x ∈ w := by
  intro ws
  induction ws with
  | nil => intro h; simp [dashJoin] at h
  | cons v vs ih =>
    intro h
    simp only [dashJoin, List.map_cons, List.flatten_cons] at h
    rcases List.mem_append.mp h with h1 | h2
    · cases h1 with
      | head => exact Or.inl rfl
      | tail _ hm => exact Or.inr ⟨v, List.mem_cons_self _ _, hm⟩
    · rcases ih h2 with h3 | ⟨w, hw, hx⟩
      · exact Or.inl h3
      · exact Or.inr ⟨w, List.mem_cons_of_mem _ hw, hx⟩

/-- One step of the exclusion scanner: a word character extends the open match. -/
theorem scanDashAux_cons_word {c : Char} {cs acc : List Char} (hc : isWordChar c = true) :
    scanDashAux (c :: cs) (some acc) = scanDashAux cs (some (c :: acc)) := by
  cases cs with
  | nil => simp [scanDashAux, hc]
  | cons c2 cs2 => simp [scanDashAux, hc]

/-- One step of the exclusion scanner: a non-hyphen character in the idle
state is copied to the residual. -/
theorem scanDashAux_none_copy {c : Char} {cs : List Char} (hc : (c == '-') = false) :
    scanDashAux (c :: cs) none =
      ((scanDashAux cs none).1, c :: (scanDashAux cs none).2) := by
  cases cs with
  | nil => simp [scanDashAux]
  | cons c2 cs2 => simp [scanDashAux, hc]

/-- One step of the exclusion scanner: a hyphen before a word character
closes the open match and opens a new one. -/
theorem scanDashAux_dash_close {c2 : Char} {cs2 acc : List Char}
    (h2 : isWordChar c2 = true) :
    scanDashAux ('-' :: c2 :: cs2) (some acc) =
      (acc.reverse :: (scanDashAux cs2 (some [c2])).1, (scanDashAux cs2 (some [c2])).2) := by
  simp [scanDashAux, h2, show isWordChar '-' = false from by decide]

/-- One step of the exclusion scanner: a hyphen before a word character in
the idle state opens a match. -/
theorem scanDashAux_dash_open {c2 : Char} {cs2 : List Char} (h2 : isWordChar c2 = true) :
    scanDashAux ('-' :: c2 :: cs2) none = scanDashAux cs2 (some [c2]) := by
  simp [scanDashAux, h2]

/-- End of input closes an open match. -/
theorem scanDashAux_nil_close {acc : List Char} :
    scanDashAux [] (some acc) = ([acc.reverse], []) := rfl

/-- Consuming a word run followed by hyphen-joined word fragments while
inside a `-(\w+)` match: the open match closes on the run, each fragment
becomes one further captured match, and no text remains. -/
theorem scanDashAux_frags :
    ∀ (ws : List (List Char)),
      (∀ w ∈ ws, w ≠ [] ∧ ∀ c ∈ w, isWordChar c = true) →
    ∀ (w acc : List Char), (∀ c ∈ w, isWordChar c = true) →
      scanDashAux (w ++ dashJoin ws) (some acc) = ((acc.reverse ++ w) :: ws, []) := by
  intro ws
  induction ws with
  | nil =>
    intro _ w
    induction w with
    | nil => intro acc _; simp [dashJoin, scanDashAux_nil_close]
    | cons c w' ihw =>
      intro acc hw
      have hc : isWordChar c = true := hw c (List.mem_cons_self _ _)
      have hw' : ∀ x ∈ w', isWordChar x = true := fun x hx => hw x (List.mem_cons_of_mem _ hx)
      rw [List.cons_append, scanDashAux_cons_word hc, ihw (c :: acc) hw']
      simp [List.append_assoc]
  | cons v vs ih =>
    intro hws w
    have hv := hws v (List.mem_cons_self _ _)
    have hvs : ∀ u ∈ vs, u ≠ [] ∧ ∀ c ∈ u, isWordChar c = true :=
      fun u hu => hws u (List.mem_cons_of_mem _ hu)
    obtain ⟨v0, v'', hveq⟩ := List.exists_cons_of_ne_nil hv.1
    have hv0 : isWordChar v0 = true := hv.2 v0 (hveq ▸ List.mem_cons_self _ _)
    have hv'' : ∀ x ∈ v'', isWordChar x = true :=
      fun x hx => hv.2 x (hveq ▸ List.mem_cons_of_mem _ hx)
    induction w with
    | nil =>
      intro acc _
      have hjoin : dashJoin (v :: vs) = '-' :: v0 :: (v'' ++ dashJoin vs) := by
        simp [dashJoin, hveq]
      rw [List.nil_append, hjoin, scanDashAux_dash_close hv0, ih hvs v'' [v0] hv'']
      simp [hveq]
    | cons c w' ihw =>
      intro acc hw
      have hc : isWordChar c = true := hw c (List.mem_cons_self _ _)
      have hw' : ∀ x ∈ w', isWordChar x = true := fun x hx => hw x (List.mem_cons_of_mem _ hx)
      rw [List.cons_append, scanDashAux_cons_word hc, ihw (c :: acc) hw']
      simp [List.append_assoc]

/-- Scanning a pure word run followed by hyphen-joined word fragments
from the idle state: the run is copied to the residual and each fragment
is captured. -/
theorem scanDashAux_wordRun :
    ∀ (p : List Char), (∀ c ∈ p, isWordChar c = true) →
    ∀ (ws : List (List Char)),
      (∀ w ∈ ws, w ≠ [] ∧ ∀ c ∈ w, isWordChar c = true) →
      scanDashAux (p ++ dashJoin ws) none = (ws, p) := by
  intro p
  induction p with
  | nil =>
    intro _ ws hws
    cases ws with
    | nil => simp [dashJoin, scanDashAux]
    | cons v vs =>
      have hv := hws v (List.mem_cons_self _ _)
      have hvs : ∀ u ∈ vs, u ≠ [] ∧ ∀ c ∈ u, isWordChar c = true :=
        fun u hu => hws u (List.mem_cons_of_mem _ hu)
      obtain ⟨v0, v'', hveq⟩ := List.exists_cons_of_ne_nil hv.1
      have hv0 : isWordChar v0 = true := hv.2 v0 (hveq ▸ List.mem_cons_self _ _)
      have hv'' : ∀ x ∈ v'', isWordChar x = true :=
        fun x hx => hv.2 x (hveq ▸ List.mem_cons_of_mem _ hx)
      have hjoin : dashJoin (v :: vs) = '-' :: v0 :: (v'' ++ dashJoin vs) := by
        simp [dashJoin, hveq]
      rw [List.nil_append, hjoin, scanDashAux_dash_open hv0,
        scanDashAux_frags vs hvs v'' [v0] hv'']
      simp [hveq]
  | cons c p' ihp =>
    intro hp ws hws
    have hc : isWordChar c = true := hp c (List.mem_cons_self _ _)
    have hcd : (c == '-') = false := by
      simp only [beq_eq_false_iff_ne, ne_eq]
      exact (isWordChar_ne hc).1
    rw [List.cons_append, scanDashAux_none_copy hcd,
      ihp (fun x hx => hp x (List.mem_cons_of_mem _ hx)) ws hws]

/-- The witness of a `getLast?` hit is a member of the list. -/
theorem getLast?_mem_self {l : List Char} {a : Char} (h : l.getLast? = some a) : a ∈ l := by
  induction l with
  | nil => simp [List.getLast?] at h
  | cons c cs ih =>
    cases cs with
    | nil => simp [List.getLast?] at h; simp [h]
    | cons d ds =>
      rw [List.getLast?_cons_cons] at h
      exact List.mem_cons_of_mem _ (ih h)

/-- `rstrip('/')` is the identity on strings not ending in a slash. -/
theorem rstripSlash_no_slash {l : List Char} (h : l.getLast? ≠ some '/') :
    rstripSlash l = l := by
  unfold rstripSlash
  cases hr : l.reverse with
  | nil => simp [List.reverse_eq_nil_iff.mp hr]
  | cons c t =>
    have hc : (c == '/') = false := by
      simp only [beq_eq_false_iff_ne, ne_eq]
      intro hceq
      apply h
      rw [← List.head?_reverse, hr, hceq]
      rfl
    have hl : l = (c :: t).reverse := by rw [← hr, List.reverse_reverse]
    simp only [List.dropWhile_cons, hc, Bool.false_eq_true, if_false]
    exact hl.symm

/-- The fragment cut is the identity on hash-free strings. -/
theorem cutHash_no_hash {l : List Char} (h : '#' ∉ l) : cutHash l = l := by
  induction l with
  | nil => rfl
  | cons c cs ih =>
    have hc : (c == '#') = false := by
      simp only [beq_eq_false_iff_ne, ne_eq]
      intro hceq; exact h (hceq ▸ List.mem_cons_self c cs)
    have hcs : '#' ∉ cs := fun hm => h (List.mem_cons_of_mem _ hm)
    simp [cutHash, hc, ih hcs]

/-- A tracking-parameter substitution is the identity on strings with no
query characters. -/
theorem subParamAux_no_query {p l : List Char} (h1 : '?' ∉ l) (h2 : '&' ∉ l) :
    subParamAux p l 0 false = l := by
  induction l with
  | nil => rfl
  | cons c cs ih =>
    have hc : (c == '?' || c == '&') = false := by
      simp only [Bool.or_eq_false_iff, beq_eq_false_iff_ne, ne_eq]
      constructor
      · intro hceq; exact h1 (hceq ▸ List.mem_cons_self c cs)
      · intro hceq; exact h2 (hceq ▸ List.mem_cons_self c cs)
    have hcs1 : '?' ∉ cs := fun hm => h1 (List.mem_cons_of_mem _ hm)
    have hcs2 : '&' ∉ cs := fun hm => h2 (List.mem_cons_of_mem _ hm)
    simp [subParamAux, hc, ih hcs1 hcs2]

/-- The dangling-delimiter cut is the identity on strings with no query
characters. -/
theorem subTrailingQA_no_query {l : List Char} (h1 : '?' ∉ l) (h2 : '&' ∉ l) :
    subTrailingQA l = l := by
  unfold subTrailingQA
  cases hg : l.getLast? with
  | none => rfl
  | some c =>
    have hcm : c ∈ l := getLast?_mem_self hg
    have hc : (c == '?' || c == '&') = false := by
      simp only [Bool.or_eq_false_iff, beq_eq_false_iff_ne, ne_eq]
      exact ⟨fun hceq => h1 (hceq ▸ hcm), fun hceq => h2 (hceq ▸ hcm)⟩
    simp [hc]

/-- Every step of `normalize_url` fixes a clean URL. -/
theorem normalize_url_fixed {s : String} (h : cleanUrl s = true) : normalize_url s = s := by
  unfold normalize_url
  by_cases hs : s = ""
  · simp [hs]
  · simp only [hs, if_false]
    unfold cleanUrl at h
    simp only [Bool.and_eq_true, Bool.not_eq_true', decide_eq_false_iff_not] at h
    have hhash : '#' ∉ s.toList := h.1.1.1
    have hq : '?' ∉ s.toList := h.1.1.2
    have hamp : '&' ∉ s.toList := h.1.2
    have hlast : s.toList.getLast? ≠ some '/' := by
      intro hg
      have h4 := h.2
      rw [hg] at h4
      simp at h4
    unfold normalizeCore
    rw [rstripSlash_no_slash hlast, cutHash_no_hash hhash]
    simp only [trackingParams, List.foldl_cons, List.foldl_nil, subParam,
      subParamAux_no_query hq hamp]
    rw [subTrailingQA_no_query hq hamp]
    rfl

/-- The robots check never touches the dedup set. -/
theorem check_robots_txt_crawled (f : String → Option Bool) (c : Crawler) (url : String) :
    ((check_robots_txt f c url).2).crawled_urls = c.crawled_urls := by
  cases hlk : c.robots_cache.lookup (netloc url) with
  | some b => simp [check_robots_txt, hlk]
  | none =>
    cases hf : f (netloc url) with
    | some a => simp [check_robots_txt, hlk, hf]
    | none => simp [check_robots_txt, hlk, hf]

/-- The fetch never touches the dedup set. -/
theorem fetch_url_crawled (f : String → Option Bool) (http : HttpResult) (c : Crawler)
    (url : String) : ((fetch_url f http c url).2).crawled_urls = c.crawled_urls := by
  have hc2 := check_robots_txt_crawled f c url
  unfold fetch_url
  rcases hrc : check_robots_txt f c url with ⟨allowed, c2⟩
  rw [hrc] at hc2
  cases allowed with
  | false => simpa using hc2
  | true =>
    cases http with
    | exn => simpa using hc2
    | resp ct len text status =>
      repeat' split
      all_goals simpa using hc2

/-! ## Claim theorems -/

/-- C3, counterexample.  The claim "normalize(normalize(u)) == normalize(u)
for every URL string u" fails at `"https://a.com/path/#frag"`: the trailing
slash is stripped before the fragment is removed, so one application yields
`"https://a.com/path/"` and a second application strips the slash the first
one exposed. -/
theorem c3_normalize_idempotent_counterexample :
    normalize_url (normalize_url "https://a.com/path/#frag") ≠
      normalize_url "https://a.com/path/#frag" := by
  decide

/-- C3, amended.  `normalize_url` is idempotent on every URL whose
normalized form is clean — free of `'#'`, `'?'` and `'&'` and not ending
in `'/'` — because each of its four steps fixes such a string; in general
a second application can strip one more trailing delimiter exposed by
fragment or parameter removal. -/
theorem c3_normalize_idempotent_amended (u : String)
    (h : cleanUrl (normalize_url u) = true) :
    normalize_url (normalize_url u) = normalize_url u :=
  normalize_url_fixed h

/-- C3, witness for the amended theorem at `"https://a.com/path#frag"`. -/
theorem c3_normalize_idempotent_witness :
    cleanUrl (normalize_url "https://a.com/path#frag") = true ∧
    normalize_url (normalize_url "https://a.com/path#frag") =
      normalize_url "https://a.com/path#frag" :=
  ⟨by decide, c3_normalize_idempotent_amended "https://a.com/path#frag" (by decide)⟩

/-- C4, counterexample.  The claim that
`normalize("https://a.com/path/?utm_source=x#frag")` returns
`"https://a.com/path"` is false: the source strips trailing slashes
first, so the slash uncovered by removing `?utm_source=x#frag` survives. -/
theorem c4_normalize_example_counterexample :
    normalize_url "https://a.com/path/?utm_source=x#frag" ≠ "https://a.com/path" := by
  decide

/-- C4, amended.  On `"https://a.com/path/?utm_source=x#frag"` the fragment
is stripped, the `utm_source` parameter is removed and no dangling
delimiter remains, but the trailing slash survives because slash stripping
runs before fragment and parameter removal: the result is
`"https://a.com/path/"`. -/
theorem c4_normalize_example_amended :
    normalize_url "https://a.com/path/?utm_source=x#frag" = "https://a.com/path/" := by
  decide

/-- C6, counterexample.  The claim that a failed robots fetch stores
`allowed=true` in the cache is false: on a failing oracle the call
returns `true` but leaves the cache untouched, and a second call for the
same domain consults the oracle again (here a now-denying oracle is
visible, which a cached `true` would have masked). -/
theorem c6_robots_failopen_counterexample :
    check_robots_txt failRobots freshCrawler "https://a.com/x" = (true, freshCrawler) ∧
    (check_robots_txt denyAll
      (check_robots_txt failRobots freshCrawler "https://a.com/x").2 "https://a.com/x").1 =
      false := by
  decide

/-- C6, amended.  When the robots fetch or parse fails for an uncached
domain, `check_robots_txt` returns `true` (fail-open) but does not cache
the decision: the crawler state is returned unchanged, so a later call
for the same domain performs the fetch again. -/
theorem c6_robots_failopen_amended (f : String → Option Bool) (c : Crawler) (url : String)
    (hmiss : c.robots_cache.lookup (netloc url) = none)
    (hfail : f (netloc url) = none) :
    check_robots_txt f c url = (true, c) := by
  simp [check_robots_txt, hmiss, hfail]

/-- C6, witness for the amended theorem on a fresh crawler and a failing
oracle. -/
theorem c6_robots_failopen_witness :
    freshCrawler.robots_cache.lookup (netloc "https://b.org/y") = none ∧
    failRobots (netloc "https://b.org/y") = none ∧
    check_robots_txt failRobots freshCrawler "https://b.org/y" = (true, freshCrawler) :=
  ⟨rfl, rfl, c6_robots_failopen_amended failRobots freshCrawler "https://b.org/y" rfl rfl⟩

/-- C8.  `save_page` rejects content whose trimmed text is under 100
characters with `false` and an unchanged store; with long enough content,
a duplicate URL — whether caught by the pre-check or by the unique-key
`IntegrityError` on insert — yields `false` with an unchanged store; and
a successful insert returns `true` having appended exactly the truncated
page row and, synchronously through the trigger, its index entry. -/
theorem c8_save_page_contract (beh : DbBehavior) (st : Store) (url title content : String)
    (status : Nat) :
    ((pyStrip content).length < 100 →
      save_page beh st url title content status = (false, st)) ∧
    (100 ≤ (pyStrip content).length → pageExists st url = true →
      save_page DbBehavior.ok st url title content status = (false, st)) ∧
    (100 ≤ (pyStrip content).length → pageExists st url = false →
      save_page DbBehavior.integrityOnInsert st url title content status = (false, st)) ∧
    (100 ≤ (pyStrip content).length → pageExists st url = false →
      save_page DbBehavior.ok st url title content status =
        (true, insertPage st url (strTake title 500) (strTake content 50000) status) ∧
      (insertPage st url (strTake title 500) (strTake content 50000) status).pages =
        st.pages ++ [⟨st.next_id, url, strTake title 500, strTake content 50000, status⟩] ∧
      (insertPage st url (strTake title 500) (strTake content 50000) status).fts =
        st.fts ++ [⟨st.next_id, strTake title 500, strTake content 50000⟩]) := by
  refine ⟨?_, ?_, ?_, ?_⟩
  · intro hshort
    cases beh <;> simp [save_page, save_page_body, hshort]
  · intro hlong hdup
    simp [save_page, save_page_body, Nat.not_lt.mpr hlong, hdup]
  · intro hlong hdup
    simp [save_page, save_page_body, Nat.not_lt.mpr hlong, hdup]
  · intro hlong hdup
    refine ⟨?_, rfl, rfl⟩
    simp [save_page, save_page_body, Nat.not_lt.mpr hlong, hdup]

/-- C8, witness: saving a fresh 120-character page into an empty store
succeeds and creates the page and its index entry. -/
theorem c8_save_page_witness :
    100 ≤ (pyStrip longContent).length ∧
    pageExists emptyStore "https://e.com/x" = false ∧
    save_page DbBehavior.ok emptyStore "https://e.com/x" "t" longContent 200 =
      (true, insertPage emptyStore "https://e.com/x" (strTake "t" 500)
        (strTake longContent 50000) 200) :=
  ⟨by decide, by decide,
    ((c8_save_page_contract DbBehavior.ok emptyStore "https://e.com/x" "t" longContent
      200).2.2.2 (by decide) (by decide)).1⟩

/-- C10.  `save_page` is a total function into `Bool × Store`, and every
exception the storage layer raises inside its `try` body — the
`IntegrityError` of a duplicate insert as well as any unexpected
exception — is caught and reported as `(false, unchanged store)`,
indistinguishable at the call site from the too-short and duplicate
rejections. -/
theorem c10_save_page_total (beh : DbBehavior) (st : Store) (url title content : String)
    (status : Nat) (e : DbErr)
    (h : save_page_body beh st url title content status = Except.error e) :
    save_page beh st url title content status = (false, st) := by
  unfold save_page
  rw [h]
  cases e <;> rfl

/-- C1, counterexample.  Two results with the same domain, where only the
first contains the query term "python" in its title (so under the claim's
additive scoring its score is strictly higher by the +30 title bonus,
domain bonuses being equal): the code orders the other row first because
relevance ordering is the index's `bm25` rank ascending, not an additive
bonus sum. -/
theorem c1_relevance_order_counterexample :
    (searchModel pairIdx "python" 1 "relevance").results =
      [enrich rowTitleMiss, enrich rowTitleHit] ∧
    netloc rowTitleHit.url = netloc rowTitleMiss.url ∧
    claimAuxScore (parse_search_query "python").terms rowTitleMiss <
      claimAuxScore (parse_search_query "python").terms rowTitleHit := by
  decide

/-- C1, amended.  For any sort other than `date` the ORDER BY clause of
`build_search_query` is `bm25(pages_fts) ASC`: results are ordered
ascending by the black-box `bm25` rank alone (a permutation of the
matched rows, ties resolved by the storage engine, modelled stably); no
additive domain/term/content-length bonus score exists in the code. -/
theorem c1_relevance_order_amended (sort_by : String) (hs : sort_by ≠ "date")
    (rows : List SearchRow) :
    orderByClause sort_by = "bm25(pages_fts) ASC" ∧
    List.Sorted (fun a b : SearchRow => a.rank ≤ b.rank) (sqlOrder sort_by rows) ∧
    (sqlOrder sort_by rows).Perm rows := by
  refine ⟨by simp [orderByClause, hs], ?_, ?_⟩
  · unfold sqlOrder
    rw [if_neg hs]
    haveI : IsTotal SearchRow (fun a b => a.rank ≤ b.rank) :=
      ⟨fun a b => le_total a.rank b.rank⟩
    haveI : IsTrans SearchRow (fun a b => a.rank ≤ b.rank) :=
      ⟨fun _ _ _ h1 h2 => le_trans h1 h2⟩
    exact List.sorted_insertionSort _ rows
  · unfold sqlOrder
    rw [if_neg hs]
    exact List.perm_insertionSort _ rows

/-- C1, witness for the amended theorem at `sort_by = "relevance"` on the
two fixture rows. -/
theorem c1_relevance_order_witness :
    "relevance" ≠ "date" ∧
    (orderByClause "relevance" = "bm25(pages_fts) ASC" ∧
      List.Sorted (fun a b : SearchRow => a.rank ≤ b.rank)
        (sqlOrder "relevance" [rowTitleHit, rowTitleMiss]) ∧
      (sqlOrder "relevance" [rowTitleHit, rowTitleMiss]).Perm [rowTitleHit, rowTitleMiss]) :=
  ⟨by decide, c1_relevance_order_amended "relevance" (by decide) [rowTitleHit, rowTitleMiss]⟩

/-- C2, counterexample.  Offering the same URL twice to a fresh frontier
queues it twice and increments the duplicates counter zero times —
`add_url_to_queue` consults `crawled_urls` but never inserts into it, so
nothing is recorded at enqueue time. -/
theorem c2_dedup_counterexample :
    (add_url_to_queue (add_url_to_queue freshCrawler "https://example.xyz/a")
        "https://example.xyz/a").lq =
      ["https://example.xyz/a", "https://example.xyz/a"] ∧
    (add_url_to_queue (add_url_to_queue freshCrawler "https://example.xyz/a")
        "https://example.xyz/a").stats.duplicates = 0 := by
  decide

/-- C2, amended.  The dedup set `crawled_urls` is populated at claim time,
not enqueue time: `add_url_to_queue` discards (with one duplicates
increment) only URLs already claimed and otherwise appends one queue entry
without touching the dedup set or the other counters, so a fresh URL
offered twice is queued twice with no duplicate count; `crawl_single_url`
adds the URL to the dedup set when it claims it — before the fetch,
whatever the fetch outcome — and a claimed URL processed again is a
no-op. -/
theorem c2_dedup_amended (f : String → Option Bool) (http : HttpResult)
    (ext : String → Option String × Option String × List String) (beh : DbBehavior)
    (st : Store) (c : Crawler) (u : String) :
    (c.crawled_urls.contains u = true →
      add_url_to_queue c u =
        { c with stats := { c.stats with duplicates := c.stats.duplicates + 1 } }) ∧
    (c.crawled_urls.contains u = false →
      (add_url_to_queue c u).crawled_urls = c.crawled_urls ∧
      (add_url_to_queue c u).stats = c.stats ∧
      queueTotal (add_url_to_queue c u) = queueTotal c + 1) ∧
    (c.crawled_urls.contains u = true →
      crawl_single_url f http ext beh st c u = ([], c, st)) ∧
    (c.crawled_urls.contains u = false → c.crawled_urls.length < c.max_pages →
      ((crawl_single_url f http ext beh st c u).2.1).crawled_urls = u :: c.crawled_urls) := by
  refine ⟨?_, ?_, ?_, ?_⟩
  · intro h
    unfold add_url_to_queue
    rw [if_pos h]
  · intro h
    simp only [add_url_to_queue, h, Bool.false_eq_true, if_false]
    split_ifs <;> exact ⟨rfl, rfl, by simp [queueTotal]; omega⟩
  · intro h
    unfold crawl_single_url
    rw [if_pos (show (c.crawled_urls.contains u
      || decide (c.max_pages ≤ c.crawled_urls.length)) = true by rw [h]; rfl)]
  · intro h1 h2
    have hguardF : (c.crawled_urls.contains u
        || decide (c.max_pages ≤ c.crawled_urls.length)) = false := by
      rw [h1, decide_eq_false (Nat.not_le.mpr h2)]
      rfl
    unfold crawl_single_url
    rw [if_neg (show ¬((c.crawled_urls.contains u
      || decide (c.max_pages ≤ c.crawled_urls.length)) = true) from
      fun hc => Bool.false_ne_true (hguardF ▸ hc))]
    rcases hf : fetch_url f http { c with crawled_urls := u :: c.crawled_urls } u with ⟨res, c1⟩
    have hcu : c1.crawled_urls = u :: c.crawled_urls := by
      have hpres := fetch_url_crawled f http { c with crawled_urls := u :: c.crawled_urls } u
      rw [hf] at hpres
      exact hpres
    cases res with
    | none => simpa using hcu
    | some pr =>
      rcases pr with ⟨html, status⟩
      rcases he : ext html with ⟨topt, rest⟩
      rcases rest with ⟨copt, links⟩
      dsimp only
      rw [he]
      cases topt with
      | none => simpa using hcu
      | some t =>
        cases copt with
        | none => simpa using hcu
        | some ct =>
          dsimp only
          split_ifs with htc hsv <;> simpa using hcu

/-- C2, witness for the amended theorem: offering a fresh URL to a fresh
frontier queues exactly one entry and records nothing in the dedup set. -/
theorem c2_dedup_witness :
    freshCrawler.crawled_urls.contains "https://w.com/p" = false ∧
    ((add_url_to_queue freshCrawler "https://w.com/p").crawled_urls =
        freshCrawler.crawled_urls ∧
      (add_url_to_queue freshCrawler "https://w.com/p").stats = freshCrawler.stats ∧
      queueTotal (add_url_to_queue freshCrawler "https://w.com/p") =
        queueTotal freshCrawler + 1) :=
  ⟨by decide,
    (c2_dedup_amended allowAll HttpResult.exn (fun _ => (none, none, [])) DbBehavior.ok
      emptyStore freshCrawler "https://w.com/p").2.1 (by decide)⟩

/-- C5, counterexample.  A non-HTML response (content-type
`application/json`) makes the fetch return no content but leaves the
`failed` counter at 0, contradicting the claim that every outcome in the
set increments `failed` by exactly one. -/
theorem c5_fetch_errors_counterexample :
    (fetch_url allowAll (HttpResult.resp "application/json" 10 "x" 200) freshCrawler
      "https://a.com/p").1 = none ∧
    (fetch_url allowAll (HttpResult.resp "application/json" 10 "x" 200) freshCrawler
      "https://a.com/p").2.stats.failed = 0 := by
  decide

/-- C5, amended.  With robots allowing the URL: a raised network error or
timeout, and an HTTP error status (via `raise_for_status`), return no
content, add the URL to `failed_urls` and increment `failed` by exactly
one; a non-HTML content-type and an over-5MB body return no content with
no counter change and no `failed_urls` entry.  In each case the caller
abandons the URL without retry. -/
theorem c5_fetch_errors_amended (f : String → Option Bool) (c : Crawler) (url : String)
    (hrb : (check_robots_txt f c url).1 = true) :
    (fetch_url f HttpResult.exn c url =
      (none, { (check_robots_txt f c url).2 with
        failed_urls := setInsert ((check_robots_txt f c url).2).failed_urls url
        stats := { ((check_robots_txt f c url).2).stats with
          failed := ((check_robots_txt f c url).2).stats.failed + 1 } })) ∧
    (∀ ct n t s, 400 ≤ s →
      fetch_url f (HttpResult.resp ct n t s) c url =
        (none, { (check_robots_txt f c url).2 with
          failed_urls := setInsert ((check_robots_txt f c url).2).failed_urls url
          stats := { ((check_robots_txt f c url).2).stats with
            failed := ((check_robots_txt f c url).2).stats.failed + 1 } })) ∧
    (∀ ct n t s, s < 400 →
      containsSub (lowerStr ct).toList "text/html".toList = false →
      fetch_url f (HttpResult.resp ct n t s) c url = (none, (check_robots_txt f c url).2)) ∧
    (∀ ct n t s, s < 400 →
      containsSub (lowerStr ct).toList "text/html".toList = true →
      5 * 1024 * 1024 < n →
      fetch_url f (HttpResult.resp ct n t s) c url = (none, (check_robots_txt f c url).2)) := by
  rcases hrc : check_robots_txt f c url with ⟨b, c2⟩
  have hb : b = true := by rw [hrc] at hrb; exact hrb
  subst hb
  refine ⟨?_, ?_, ?_, ?_⟩
  · simp [fetch_url, hrc]
  · intro ct n t s hs
    simp [fetch_url, hrc, hs]
  · intro ct n t s hs hct
    simp only [fetch_url, hrc]
    rw [if_neg (Nat.not_le.mpr hs), hct]
    simp
  · intro ct n t s hs hct hn
    simp only [fetch_url, hrc]
    rw [if_neg (Nat.not_le.mpr hs), hct]
    simp [hn]

/-- C5, witness for the amended theorem: a network error on an allowed
URL is counted as one failure. -/
theorem c5_fetch_errors_witness :
    (check_robots_txt allowAll freshCrawler "https://w.com/p").1 = true ∧
    fetch_url allowAll HttpResult.exn freshCrawler "https://w.com/p" =
      (none, { (check_robots_txt allowAll freshCrawler "https://w.com/p").2 with
        failed_urls := setInsert
          ((check_robots_txt allowAll freshCrawler "https://w.com/p").2).failed_urls
          "https://w.com/p"
        stats := { ((check_robots_txt allowAll freshCrawler "https://w.com/p").2).stats with
          failed :=
            ((check_robots_txt allowAll freshCrawler "https://w.com/p").2).stats.failed
              + 1 } }) :=
  ⟨by decide, (c5_fetch_errors_amended allowAll freshCrawler "https://w.com/p" (by decide)).1⟩

/-- C7.  For a query whose parsed operators carry no positive clause (no
phrase, no term, no intitle) and no URL filters but at least one
exclusion term, the match expression is the wildcard `"*"`, so the
matched set is the whole corpus: `total_results` (and hence
`total_pages`) is the pre-exclusion corpus count, while the returned
results are the already-fetched, ordered, enriched page slice with every
row whose lowercased title-plus-snippet contains an excluded term
dropped afterwards — which can leave fewer than `results_per_page` rows
on the page. -/
theorem c7_exclusion_postfilter (idx : String → List SearchRow) (db : List SearchRow)
    (q : String) (page : Nat)
    (hidx : idx "*" = db)
    (hph : (parse_search_query q).exact_phrase = [])
    (hterms : (parse_search_query q).terms = [])
    (hintitle : (parse_search_query q).intitle = [])
    (hsite : (parse_search_query q).site = none)
    (hinurl : (parse_search_query q).inurl = [])
    (hexcl : (parse_search_query q).exclude ≠ []) :
    (searchModel idx q page "relevance").total_results = db.length ∧
    (searchModel idx q page "relevance").total_pages =
      (db.length + results_per_page - 1) / results_per_page ∧
    (searchModel idx q page "relevance").results =
      ((((sqlOrder "relevance" db).drop ((page - 1) * results_per_page)).take
          results_per_page).map enrich).filter
        (fun r => !excludedHit (parse_search_query q).exclude r) := by
  have hfq : ftsQuery (parse_search_query q) = "*" := by
    simp [ftsQuery, hph, hterms, hintitle]
  have hcond : ∀ r ∈ idx (ftsQuery (parse_search_query q)),
      urlLikeCond (parse_search_query q) r = true := by
    intro r _
    simp [urlLikeCond, hsite, hinurl]
  have hfilter : (idx (ftsQuery (parse_search_query q))).filter
      (urlLikeCond (parse_search_query q)) = db := by
    rw [List.filter_eq_self.mpr hcond, hfq, hidx]
  have hem : (parse_search_query q).exclude.isEmpty = false := by
    cases hE : (parse_search_query q).exclude with
    | nil => exact absurd hE hexcl
    | cons a tl => rfl
  unfold searchModel
  simp [hfilter, hem]

/-- C7, witness: the query `"-java"` against a 25-row corpus where five
rows mention "java" — the wildcard matches all 25 (`total_results` is
25, over one page), the first page of 20 loses its 5 matching rows, and
only 15 results are returned. -/
theorem c7_exclusion_postfilter_witness :
    (exclIdx "*" = exclDb ∧
      (parse_search_query "-java").exact_phrase = [] ∧
      (parse_search_query "-java").terms = [] ∧
      (parse_search_query "-java").intitle = [] ∧
      (parse_search_query "-java").site = none ∧
      (parse_search_query "-java").inurl = [] ∧
      (parse_search_query "-java").exclude ≠ []) ∧
    ((searchModel exclIdx "-java" 1 "relevance").total_results = exclDb.length ∧
      (searchModel exclIdx "-java" 1 "relevance").total_pages =
        (exclDb.length + results_per_page - 1) / results_per_page ∧
      (searchModel exclIdx "-java" 1 "relevance").results =
        ((((sqlOrder "relevance" exclDb).drop ((1 - 1) * results_per_page)).take
            results_per_page).map enrich).filter
          (fun r => !excludedHit (parse_search_query "-java").exclude r)) ∧
    (searchModel exclIdx "-java" 1 "relevance").results.length < results_per_page ∧
    results_per_page < (searchModel exclIdx "-java" 1 "relevance").total_results := by
  have hmain := c7_exclusion_postfilter exclIdx exclDb "-java" 1 rfl (by decide) (by decide)
    (by decide) (by decide) (by decide) (by decide)
  exact ⟨⟨rfl, by decide, by decide, by decide, by decide, by decide, by decide⟩, hmain,
    by decide, by decide⟩

/-- C9.  A hyphenated compound word — a word run `p` followed by
fragments `-w₁-w₂-…`, all of word characters — parses with every
fragment captured as an exclusion term and stripped from the text: the
exclusions are exactly the fragments, the residual terms are exactly
`[p]`, and (when no fragment equals `p`) no fragment ever appears in
`terms`.  Intra-word hyphens are indistinguishable from the exclusion
operator. -/
theorem c9_intra_word_hyphens (p : List Char) (ws : List (List Char)) (q : String)
    (hq : q = String.mk (p ++ dashJoin ws))
    (hp1 : p ≠ []) (hp2 : ∀ c ∈ p, isWordChar c = true)
    (hws : ∀ w ∈ ws, w ≠ [] ∧ ∀ c ∈ w, isWordChar c = true)
    (hne : ∀ w ∈ ws, w ≠ p) :
    (parse_search_query q).exclude = ws.map String.mk ∧
    (parse_search_query q).terms = [String.mk p] ∧
    ∀ w ∈ ws, String.mk w ∉ (parse_search_query q).terms := by
  subst hq
  have hlist : (String.mk (p ++ dashJoin ws)).toList = p ++ dashJoin ws := rfl
  have hquote : '"' ∉ p ++ dashJoin ws := by
    intro hm
    rcases List.mem_append.mp hm with hm | hm
    · exact absurd (hp2 _ hm) (by decide)
    · rcases mem_dashJoin hm with he | ⟨w, hw, hx⟩
      · exact absurd he (by decide)
      · exact absurd ((hws w hw).2 _ hx) (by decide)
  have hscanQ : scanQuoted (p ++ dashJoin ws) = ([], p ++ dashJoin ws) :=
    scanQuotedAux_no_quote hquote
  have hscanD : scanDash (p ++ dashJoin ws) = (ws, p) := scanDashAux_wordRun p hp2 ws hws
  have hcolon : ':' ∉ p := fun hm => absurd (hp2 _ hm) (by decide)
  have hop1 : scanOp "site:".toList notSpace p = ([], p) :=
    scanOpAux_no_colon (by decide) hcolon
  have hop2 : scanOp "filetype:".toList isWordChar p = ([], p) :=
    scanOpAux_no_colon (by decide) hcolon
  have hop3 : scanOp "intitle:".toList isWordChar p = ([], p) :=
    scanOpAux_no_colon (by decide) hcolon
  have hop4 : scanOp "inurl:".toList isWordChar p = ([], p) :=
    scanOpAux_no_colon (by decide) hcolon
  have hsplit : splitWs p = [p] :=
    splitWs_single hp1 (fun c hc => (isWordChar_ne (hp2 c hc)).2.2.2)
  have hparse : parse_search_query (String.mk (p ++ dashJoin ws)) =
      { exact_phrase := [], exclude := ws.map String.mk, site := none, filetype := none,
        intitle := [], inurl := [], terms := [String.mk p] } := by
    simp only [parse_search_query, hlist, hscanQ, hscanD, hop1, hop2, hop3, hop4, hsplit,
      List.map_nil, List.head?_nil, List.map_cons]
    rfl
  refine ⟨by rw [hparse], by rw [hparse], ?_⟩
  intro w hw hmem
  rw [hparse] at hmem
  simp only [List.mem_singleton] at hmem
  have hwp : w = p := congrArg String.toList hmem
  exact hne w hw hwp

/-- C9, witness at `"state-of-the-art"`: the fragments `of`, `the`, `art`
all land in `exclude` and never in `terms`, which is exactly
`["state"]`. -/
theorem c9_intra_word_hyphens_witness :
    ("state-of-the-art" =
      String.mk ("state".toList ++ dashJoin ["of".toList, "the".toList, "art".toList])) ∧
    (parse_search_query "state-of-the-art").exclude =
      (["of".toList, "the".toList, "art".toList]).map String.mk ∧
    (parse_search_query "state-of-the-art").terms = [String.mk "state".toList] ∧
    ∀ w ∈ ["of".toList, "the".toList, "art".toList],
      String.mk w ∉ (parse_search_query "state-of-the-art").terms := by
  have hmain := c9_intra_word_hyphens "state".toList
    ["of".toList, "the".toList, "art".toList] "state-of-the-art" (by decide) (by decide)
    (by decide) (by decide) (by decide)
  exact ⟨by decide, hmain.1, hmain.2.1, hmain.2.2⟩

/-- C10, witness: an unexpected storage exception during a long-content
save is reported as `false` with the store unchanged. -/
theorem c10_save_page_total_witness :
    save_page_body DbBehavior.raiseOther emptyStore "u" "t" longContent 200 =
      Except.error DbErr.other ∧
    save_page DbBehavior.raiseOther emptyStore "u" "t" longContent 200 = (false, emptyStore) :=
  ⟨by rfl,
    c10_save_page_total DbBehavior.raiseOther emptyStore "u" "t" longContent 200 DbErr.other
      (by rfl)⟩

end FomoSearch
